import Mathlib

/-!
Verification of the dynamic-schema / universal-query layer of the
rest-api-mongo-connector repository.  The JavaScript sources are shallowly
embedded: each route handler and helper becomes a pure Lean function over
explicit state (lists standing for MongoDB collections, association lists
standing for JavaScript Map objects), and thrown errors become Except values.
-/

namespace MongoConnector

/-! ## JavaScript string and number primitives used by the sources -/

/-- JavaScript String.prototype.startsWith: the second string is a prefix of
the first. -/
def jsStartsWith (s p : String) : Bool :=
  p.data.isPrefixOf s.data

/-- JavaScript String.prototype.substring(n): drop the first n characters. -/
def jsSubstring (s : String) (n : Nat) : String :=
  ⟨s.data.drop n⟩

/-- JavaScript String.prototype.includes(c) for a one-character needle. -/
def jsIncludesChar (s : String) (c : Char) : Bool :=
  s.data.contains c

/-- Splitting a character list on a separator character, JavaScript
String.prototype.split semantics: consecutive separators yield empty pieces
and the empty input yields one empty piece. -/
def splitOnChar (sep : Char) : List Char → List String
  | [] => [⟨[]⟩]
  | c :: rest =>
    let r := splitOnChar sep rest
    if c = sep then ⟨[]⟩ :: r
    else
      match r with
      | [] => [⟨[c]⟩]
      | h :: t => ⟨c :: h.data⟩ :: t

/-- JavaScript String.prototype.split(sep) for a one-character separator. -/
def jsSplit (s : String) (sep : Char) : List String :=
  splitOnChar sep s.data

/-- Numeric value of a list of decimal digit characters. -/
def digitsVal (l : List Char) : Nat :=
  l.foldl (fun a c => a * 10 + (c.toNat - 48)) 0

/-- An exact decimal number, the direct output shape of parseFloat on a
decimal literal: the value denoted is mantissa divided by 10 to the
exponent.  Kept unreduced so that equality of parse results is computable. -/
structure Dec where
  mantissa : Int
  exponent : Nat
deriving DecidableEq, Repr

/-- The rational value an exact decimal denotes. -/
def Dec.toRat (d : Dec) : ℚ :=
  (d.mantissa : ℚ) / (10 : ℚ) ^ d.exponent

/-- Magnitude part shared by the parseFloat model: leading digits, then an
optional fractional part.  Returns none when no digit is found, which models
the NaN result. -/
def jsParseFloatMag (l : List Char) : Option Dec :=
  let intPart := l.takeWhile Char.isDigit
  let rest := l.dropWhile Char.isDigit
  let fracPart := match rest with
    | '.' :: r => r.takeWhile Char.isDigit
    | _ => []
  if intPart.isEmpty && fracPart.isEmpty then none
  else some ⟨(digitsVal (intPart ++ fracPart) : Int), fracPart.length⟩

/-- Model of JavaScript parseFloat restricted to the decimal shapes the query
grammar produces: optional sign, digits, optional fractional digits, trailing
junk ignored.  none models NaN.  The value is kept exact; the query values in
the claims are small decimals, below double precision. -/
def jsParseFloat (s : String) : Option Dec :=
  match s.data with
  | '-' :: r => (jsParseFloatMag r).map (fun d => ⟨-d.mantissa, d.exponent⟩)
  | '+' :: r => jsParseFloatMag r
  | l => jsParseFloatMag l

/-- Magnitude part of whole-string Number(s) conversion: the entire remaining
input must be digits with at most one dot.  none models NaN. -/
def jsNumberMag (l : List Char) : Option Dec :=
  let intPart := l.takeWhile Char.isDigit
  let rest := l.dropWhile Char.isDigit
  match rest with
  | [] => if intPart.isEmpty then none else some ⟨(digitsVal intPart : Int), 0⟩
  | '.' :: r =>
    let fracPart := r.takeWhile Char.isDigit
    if !(r.dropWhile Char.isDigit).isEmpty then none
    else if intPart.isEmpty && fracPart.isEmpty then none
    else some ⟨(digitsVal (intPart ++ fracPart) : Int), fracPart.length⟩
  | _ => none

/-- Model of JavaScript Number(s) as used by isNaN(value): the whole string
must be a decimal literal; the empty string converts to 0.  none models
NaN. -/
def jsNumberWhole (s : String) : Option Dec :=
  match s.data with
  | [] => some ⟨0, 0⟩
  | '-' :: r => (jsNumberMag r).map (fun d => ⟨-d.mantissa, d.exponent⟩)
  | '+' :: r => jsNumberMag r
  | l => jsNumberMag l

/-! ## Query translator (universal.js lines 85-117, part_004 lines 189-221) -/

/-- One parsed filter predicate as built for a non-reserved query parameter.
The Option Dec payloads of the comparison predicates carry the parseFloat
result, none standing for NaN. -/
inductive FilterPred where
  | gt (v : Option Dec)
  | lt (v : Option Dec)
  | gte (v : Option Dec)
  | lte (v : Option Dec)
  | ne (v : String)
  | regexI (v : String)
  | inList (vs : List String)
  | boolLit (b : Bool)
  | numLit (v : Dec)
  | strLit (v : String)
deriving DecidableEq, Repr

/-- Translation of one raw query-parameter value into a filter predicate,
mirroring the if/else chain of universal.js lines 90-115 (identical in
part_004 lines 194-219) in source order: the startsWith tests run in the
order GT, LT, GTE, LTE, NE, regex, comma list, then the literal fallbacks. -/
def parseFilterValue (value : String) : FilterPred :=
  if jsStartsWith value ">" then .gt (jsParseFloat (jsSubstring value 1))
  else if jsStartsWith value "<" then .lt (jsParseFloat (jsSubstring value 1))
  else if jsStartsWith value ">=" then .gte (jsParseFloat (jsSubstring value 2))
  else if jsStartsWith value "<=" then .lte (jsParseFloat (jsSubstring value 2))
  else if jsStartsWith value "!=" then .ne (jsSubstring value 2)
  else if jsStartsWith value "~" then .regexI (jsSubstring value 1)
  else if jsIncludesChar value ',' then .inList (jsSplit value ',')
  else if value = "true" then .boolLit true
  else if value = "false" then .boolLit false
  else
    match jsNumberWhole value, jsParseFloat value with
    | some _, some q => .numLit q
    | _, _ => .strLit value

/-- Reserved parameter names excluded from filter construction
(universal.js line 86). -/
def reservedKeys : List String := ["page", "limit", "sort", "fields"]

/-- The filter object built from the raw query parameters: every non-reserved
key is translated by parseFilterValue. -/
def buildFilter (params : List (String × String)) : List (String × FilterPred) :=
  (params.filter (fun kv => !(reservedKeys.contains kv.1))).map
    (fun kv => (kv.1, parseFilterValue kv.2))

/-- Whether a filter predicate is a greater-or-equal or less-or-equal
comparison. -/
def FilterPred.isGteOrLte : FilterPred → Bool
  | .gte _ => true
  | .lte _ => true
  | _ => false


/-! ## Error taxonomy of the HTTP envelopes -/

/-- The error classes the routes reply with: 400 validation, 409 conflict,
404 not found, 500 server error. -/
inductive ApiError where
  | validation
  | conflict
  | notFound
  | server
deriving DecidableEq, Repr

/-! ## Schema registry documents (src/models/Schema.js) -/

/-- Lowercasing as mongoose applies it to the collectionName path. -/
def jsToLower (s : String) : String :=
  ⟨s.data.map Char.toLower⟩

/-- One FieldDefinition inside a schema document (Schema.js lines 20-52).
The default value and validationRules are opaque pass-through data and are
modelled as uninterpreted strings. -/
structure SchemaField where
  name : String
  type : String
  required : Bool := false
  unique : Bool := false
  index : Bool := false
  default : Option String := none
  enum : List String := []
  min : Option Dec := none
  max : Option Dec := none
  minLength : Option Nat := none
  maxLength : Option Nat := none
  pattern : Option String := none
  ref : Option String := none
deriving DecidableEq, Repr

/-- One IndexDefinition inside a schema document (Schema.js lines 53-60):
a field-to-direction mapping plus advisory options. -/
structure IndexDef where
  fields : List (String × Int)
  unique : Option Bool := none
  sparse : Option Bool := none
  background : Option Bool := none
deriving DecidableEq, Repr

/-- One stored SchemaDefinition document.  Mongo object ids are modelled as
naturals and timestamps as naturals. -/
structure SchemaDoc where
  id : Nat
  collectionName : String
  displayName : String
  description : Option String := none
  fields : List SchemaField := []
  indexes : List IndexDef := []
  validationRules : Option String := none
  isActive : Bool := true
  createdAt : Nat := 0
  updatedAt : Nat := 0
deriving DecidableEq, Repr

/-- Schema.getByCollectionName (Schema.js lines 172-174):
findOne on the lowercased name restricted to isActive true; findOne returns
the first matching document. -/
def getByCollectionName (db : List SchemaDoc) (name : String) : Option SchemaDoc :=
  db.find? (fun s => s.collectionName == jsToLower name && s.isActive)

/-- Schema.findById: the document with the given id, active or not. -/
def findSchemaById (db : List SchemaDoc) (id : Nat) : Option SchemaDoc :=
  db.find? (fun s => s.id == id)

/-! ## Model compilation (Schema.js generateMongooseSchema, lines 83-164) -/

/-- The mongoose types the switch of lines 89-116 maps field type names to. -/
inductive MongooseType where
  | string
  | number
  | boolean
  | date
  | objectId
  | arrayMixed
  | mixed
deriving DecidableEq, Repr

/-- The switch of Schema.js lines 89-116: Object, Mixed and every unknown
type name all map to Mixed. -/
def mongooseTypeOf : String → MongooseType
  | "String" => .string
  | "Number" => .number
  | "Boolean" => .boolean
  | "Date" => .date
  | "ObjectId" => .objectId
  | "Array" => .arrayMixed
  | "Object" => .mixed
  | "Mixed" => .mixed
  | _ => .mixed

/-- The per-field mongoose config built in Schema.js lines 118-157. -/
structure FieldConfig where
  type : MongooseType
  required : Bool
  unique : Bool
  index : Bool
  default : Option String := none
  enum : Option (List String) := none
  min : Option Dec := none
  max : Option Dec := none
  minlength : Option Nat := none
  maxlength : Option Nat := none
  matchPat : Option String := none
  ref : Option String := none
deriving DecidableEq, Repr

/-- Schema.js lines 87-157 for one field: the type switch plus the guarded
constraint assignments.  The pattern and ref guards use JavaScript
truthiness, so an empty string is skipped like an absent one. -/
def fieldConfigOf (f : SchemaField) : FieldConfig :=
  { type := mongooseTypeOf f.type
    required := f.required
    unique := f.unique
    index := f.index
    default := f.default
    enum := if f.enum.length > 0 then some f.enum else none
    min := f.min
    max := f.max
    minlength := f.minLength
    maxlength := f.maxLength
    matchPat := match f.pattern with
      | some p => if p.data.isEmpty then none else some p
      | none => none
    ref := match f.ref with
      | some r => if r.data.isEmpty then none else some r
      | none => none }

/-- generateMongooseSchema: the named field configs of the schema document,
in field order. -/
def generateMongooseSchema (s : SchemaDoc) : List (String × FieldConfig) :=
  s.fields.map (fun f => (f.name, fieldConfigOf f))

/-! ## Model cache and model obtainment
(universal.js lines 22-40, part_004 lines 22-50) -/

/-- A mongoose model as the routers use it: its collection name plus either
the schemaless dynamic schema (strict false, any fields allowed) or the
schema generated from a SchemaDoc. -/
inductive CompiledModel where
  | schemaless (collection : String)
  | fromSchema (collection : String) (schemaFields : List (String × FieldConfig))
deriving DecidableEq, Repr

/-- Whether a model validates schema field constraints at all. -/
def CompiledModel.isSchemaConstrained : CompiledModel → Bool
  | .schemaless _ => false
  | .fromSchema _ _ => true

/-- The process-wide model cache, a JavaScript Map from collection name to
model.  Lookup takes the most recent binding. -/
abbrev ModelCache := List (String × CompiledModel)

/-- Map.prototype.get combined with Map.prototype.has: the cached model for
a name, if present. -/
def cacheGet (c : ModelCache) (k : String) : Option CompiledModel :=
  (c.find? (fun e => e.1 == k)).map (fun e => e.2)

/-- Map.prototype.set: bind a name to a model (newest binding wins). -/
def cacheSet (c : ModelCache) (k : String) (m : CompiledModel) : ModelCache :=
  (k, m) :: c

/-- getDynamicModel of universal.js lines 25-40: return the cached model if
present, otherwise build the schemaless dynamic model and cache it.  It
performs no schema lookup at all. -/
def getDynamicModel (cache : ModelCache) (collectionName : String) :
    CompiledModel × ModelCache :=
  match cacheGet cache collectionName with
  | some m => (m, cache)
  | none =>
    let model := CompiledModel.schemaless collectionName
    (model, cacheSet cache collectionName model)

/-- getModelFromSchema of part_004 lines 25-50: return the cached model if
present; otherwise look up the active schema definition, compile it when it
exists, fall back to the schemaless dynamic model when it does not, and
cache the result. -/
def getModelFromSchema (db : List SchemaDoc) (cache : ModelCache)
    (collectionName : String) : CompiledModel × ModelCache :=
  match cacheGet cache collectionName with
  | some m => (m, cache)
  | none =>
    match getByCollectionName db collectionName with
    | some schemaDef =>
      let model := CompiledModel.fromSchema collectionName (generateMongooseSchema schemaDef)
      (model, cacheSet cache collectionName model)
    | none =>
      let model := CompiledModel.schemaless collectionName
      (model, cacheSet cache collectionName model)

/-! ## Schema routes (src/routes/schemas.js) -/

/-- The closed set of legal field type names (schemas.js line 104). -/
def fieldTypeNames : List String :=
  ["String", "Number", "Boolean", "Date", "ObjectId", "Array", "Object", "Mixed"]

/-- The request body of POST /api/v1/schemas. -/
structure CreateBody where
  collectionName : String
  displayName : String
  description : Option String := none
  fields : List SchemaField := []
  indexes : List IndexDef := []
  validationRules : Option String := none
deriving DecidableEq, Repr

/-- The express-validator chain of schemas.js lines 100-104: nonempty
collectionName and displayName, and every field has a nonempty name and a
legal type. -/
def validateCreateBody (b : CreateBody) : Bool :=
  !b.collectionName.data.isEmpty && !b.displayName.data.isEmpty &&
    b.fields.all (fun f => !f.name.data.isEmpty && fieldTypeNames.contains f.type)

/-- POST /api/v1/schemas (schemas.js lines 99-143).  The duplicate check of
lines 109-111 is findOne on the lowercased collectionName alone: it does not
restrict to active documents, so a soft-deleted definition also triggers the
409 conflict.  On success the new document is stored with the lowercased
name and the mongoose defaults (isActive true, timestamps). -/
def schemaCreate (db : List SchemaDoc) (b : CreateBody) (newId : Nat) (now : Nat) :
    Except ApiError (List SchemaDoc × SchemaDoc) :=
  if validateCreateBody b = false then .error .validation
  else
    match db.find? (fun s => s.collectionName == jsToLower b.collectionName) with
    | some _ => .error .conflict
    | none =>
      let doc : SchemaDoc :=
        { id := newId
          collectionName := jsToLower b.collectionName
          displayName := b.displayName
          description := b.description
          fields := b.fields
          indexes := b.indexes
          validationRules := b.validationRules
          isActive := true
          createdAt := now
          updatedAt := now }
      .ok (db ++ [doc], doc)

/-- The partial request body of PUT /api/v1/schemas/:id: a key is present
exactly when its Option is some.  collectionName can be supplied but is
skipped by the update loop. -/
structure UpdateBody where
  collectionName : Option String := none
  displayName : Option String := none
  description : Option String := none
  fields : Option (List SchemaField) := none
  indexes : Option (List IndexDef) := none
  validationRules : Option String := none
  isActive : Option Bool := none
  createdAt : Option Nat := none
deriving DecidableEq, Repr

/-- The express-validator chain of schemas.js lines 147-150: a supplied
displayName must be nonempty; description and fields carry their types by
construction here. -/
def validateUpdateBody (b : UpdateBody) : Bool :=
  match b.displayName with
  | some v => !v.data.isEmpty
  | none => true

/-- The update loop of schemas.js lines 163-171: every defined body key
except collectionName is assigned onto the document, then updatedAt is set
to the current time. -/
def applySchemaUpdate (s : SchemaDoc) (b : UpdateBody) (now : Nat) : SchemaDoc :=
  let s1 := match b.displayName with | some v => { s with displayName := v } | none => s
  let s2 := match b.description with | some v => { s1 with description := some v } | none => s1
  let s3 := match b.fields with | some v => { s2 with fields := v } | none => s2
  let s4 := match b.indexes with | some v => { s3 with indexes := v } | none => s3
  let s5 := match b.validationRules with
    | some v => { s4 with validationRules := some v }
    | none => s4
  let s6 := match b.isActive with | some v => { s5 with isActive := v } | none => s5
  let s7 := match b.createdAt with | some v => { s6 with createdAt := v } | none => s6
  { s7 with updatedAt := now }

/-- PUT /api/v1/schemas/:id (schemas.js lines 146-185): validator chain,
findById, 404 when absent, otherwise the partial merge followed by save. -/
def schemaUpdateRoute (db : List SchemaDoc) (id : Nat) (b : UpdateBody) (now : Nat) :
    Except ApiError (List SchemaDoc × SchemaDoc) :=
  if validateUpdateBody b = false then .error .validation
  else
    match findSchemaById db id with
    | none => .error .notFound
    | some s =>
      let s2 := applySchemaUpdate s b now
      .ok (db.map (fun x => if x.id == id then s2 else x), s2)

/-- DELETE /api/v1/schemas/:id (schemas.js lines 188-217): findById with no
isActive restriction, 404 when absent, otherwise isActive is set to false
and the document saved (the timestamps option bumps updatedAt on save). -/
def schemaSoftDeleteRoute (db : List SchemaDoc) (id : Nat) (now : Nat) :
    Except ApiError (List SchemaDoc) :=
  match findSchemaById db id with
  | none => .error .notFound
  | some s =>
    let s2 := { s with isActive := false, updatedAt := now }
    .ok (db.map (fun x => if x.id == id then s2 else x))

/-! ## Documents and the delete route (universal.js lines 287-316) -/

/-- A stored document: its Mongo id string plus opaque content. -/
structure Doc where
  id : String
  body : String := ""
deriving DecidableEq, Repr

/-- express-validator isMongoId: a 24-character hexadecimal string. -/
def isMongoId (s : String) : Bool :=
  s.data.length == 24 && s.data.all (fun c =>
    c.isDigit || ('a' ≤ c && c ≤ 'f') || ('A' ≤ c && c ≤ 'F'))

/-- findByIdAndDelete: the removed document (or none) and the remaining
collection.  The id index is unique, so at most one document matches. -/
def findByIdAndDelete (docs : List Doc) (id : String) : Option Doc × List Doc :=
  match docs.find? (fun d => d.id == id) with
  | none => (none, docs)
  | some d => (some d, docs.filter (fun x => !(x.id == id)))

/-- DELETE /api/v1/:collection/:id (universal.js lines 288-316): the id
param must be a Mongo object id, findByIdAndDelete runs, a null result is
reported as 404 and a removed document as success. -/
def deleteDocRoute (docs : List Doc) (id : String) : Except ApiError (List Doc) :=
  if isMongoId id = false then .error .validation
  else
    match findByIdAndDelete docs id with
    | (none, _) => .error .notFound
    | (some _, rest) => .ok rest

/-! ## Pagination of the list route (universal.js lines 63-74 and 141-152) -/

/-- validator.js isInt: the whole string is an optional sign followed by one
or more decimal digits; the parsed integer is returned. -/
def strictIntOfString (s : String) : Option Int :=
  match s.data with
  | [] => none
  | '-' :: ds =>
    if !ds.isEmpty && ds.all Char.isDigit then some (-(digitsVal ds : Int)) else none
  | '+' :: ds =>
    if !ds.isEmpty && ds.all Char.isDigit then some (digitsVal ds : Int) else none
  | ds => if ds.all Char.isDigit then some (digitsVal ds : Int) else none

/-- query(page).optional().isInt(min 1) of universal.js line 64. -/
def pageParamOk (p : Option String) : Bool :=
  match p with
  | none => true
  | some s =>
    match strictIntOfString s with
    | some n => decide (1 ≤ n)
    | none => false

/-- query(limit).optional().isInt(min 1, max 1000) of universal.js line 65. -/
def limitParamOk (l : Option String) : Bool :=
  match l with
  | none => true
  | some s =>
    match strictIntOfString s with
    | some n => decide (1 ≤ n ∧ n ≤ 1000)
    | none => false

/-- JavaScript parseInt on a string: optional sign then the longest run of
leading digits; none models NaN. -/
def jsParseInt (s : String) : Option Int :=
  match s.data with
  | '-' :: ds =>
    let digits := ds.takeWhile Char.isDigit
    if digits.isEmpty then none else some (-(digitsVal digits : Int))
  | '+' :: ds =>
    let digits := ds.takeWhile Char.isDigit
    if digits.isEmpty then none else some (digitsVal digits : Int)
  | ds =>
    let digits := ds.takeWhile Char.isDigit
    if digits.isEmpty then none else some (digitsVal digits : Int)

/-- The idiom parseInt(x) or-else d of universal.js lines 72-73: a missing
value parses to NaN, and the or-else replaces both NaN and 0 by the
default. -/
def jsParseIntOr (x : Option String) (d : Int) : Int :=
  match x with
  | none => d
  | some s =>
    match jsParseInt s with
    | some n => if n = 0 then d else n
    | none => d

/-- The page window the list handler computes. -/
structure PageWindow where
  page : Int
  limit : Int
  skip : Int
deriving DecidableEq, Repr

/-- GET /api/v1/:collection pagination pipeline: the express-validator chain
of lines 63-68 runs first and replies 400 before the handler body (and hence
before any database call); on success the handler computes page, limit and
skip exactly as lines 72-74. -/
def listPagination (pageS limitS : Option String) : Except ApiError PageWindow :=
  if pageParamOk pageS = false ∨ limitParamOk limitS = false then .error .validation
  else
    let page := jsParseIntOr pageS 1
    let limit := jsParseIntOr limitS 10
    .ok { page := page, limit := limit, skip := (page - 1) * limit }

/-- pagination.pages of universal.js line 148: Math.ceil(total/limit),
written for a positive integer limit. -/
def pagesOf (total limit : Nat) : Nat :=
  (total + limit - 1) / limit

/-! ## Route registration order of the universal router (universal.js) -/

/-- One segment of an express route pattern. -/
inductive Seg where
  | lit (s : String)
  | param (name : String)
deriving DecidableEq, Repr

/-- Whether one pattern segment accepts one path segment. -/
def segMatches : Seg → String → Bool
  | .lit s, x => s == x
  | .param _, _ => true

/-- Whether a whole pattern accepts a whole path. -/
def routeMatches (pat : List Seg) (path : List String) : Bool :=
  pat.length == path.length && (pat.zip path).all (fun sx => segMatches sx.1 sx.2)

/-- Index of the first pattern in the list that accepts the path; express
dispatches a request to the first registered matching route. -/
def firstMatchIdx (routes : List (List Seg)) (path : List String) : Option Nat :=
  match routes with
  | [] => none
  | r :: rs =>
    if routeMatches r path then some 0
    else (firstMatchIdx rs path).map (fun i => i + 1)

/-- The GET routes of the universal router in registration order:
/collections (line 43), /:collection (line 63), /:collection/:id (line 163),
/:collection/stats (line 367). -/
def universalGetRoutes : List (List Seg) :=
  [ [Seg.lit "collections"],
    [Seg.param "collection"],
    [Seg.param "collection", Seg.param "id"],
    [Seg.param "collection", Seg.lit "stats"] ]

/-- The index of GET /:collection/:id in universalGetRoutes. -/
def getByIdRouteIdx : Nat := 2

/-- The index of GET /:collection/stats in universalGetRoutes. -/
def statsRouteIdx : Nat := 3

/-- Whether a GET request path is dispatched to the stats route. -/
def reachesStatsRoute (path : List String) : Bool :=
  firstMatchIdx universalGetRoutes path == some statsRouteIdx

/-- The validation step of GET /:collection/:id (universal.js lines
163-166): a non object-id id param is answered with the 400 validation
envelope before the handler body runs. -/
def getByIdValidation (id : String) : Option ApiError :=
  if isMongoId id = false then some .validation else none

/-! ## Backup and restore (part_005 lines 277-388) -/

/-- One index descriptor as collection.indexes() returns it and as
createIndex consumes it. -/
structure BackupIndex where
  name : String
  key : List (String × Int)
  options : Option String := none
deriving DecidableEq, Repr

/-- One collection entry of a backup object (part_005 lines 304-310). -/
structure BackupCollection where
  name : String
  documentCount : Nat := 0
  size : Nat := 0
  indexes : List BackupIndex := []
  data : List Doc := []
deriving DecidableEq, Repr

/-- A backup object (part_005 lines 291-295); collections is an object
keyed by collection name. -/
structure Backup where
  database : String := ""
  timestamp : String := ""
  collections : List (String × BackupCollection) := []
deriving DecidableEq, Repr

/-- The state of one stored collection: its documents and its secondary
index descriptors. -/
structure DbColl where
  docs : List Doc := []
  indexes : List BackupIndex := []
deriving DecidableEq, Repr

/-- The database state restore mutates: collections by name. -/
abbrev DbState := List (String × DbColl)

/-- db.collection(name): existing state, or a fresh empty collection.
Lookup takes the most recent binding. -/
def getColl (db : DbState) (name : String) : DbColl :=
  ((db.find? (fun e => e.1 == name)).map (fun e => e.2)).getD {}

/-- Writing one collection's state back (newest binding wins). -/
def setColl (db : DbState) (name : String) (c : DbColl) : DbState :=
  (name, c) :: db

/-- The index restore loop of part_005 lines 354-362: the default id index
is skipped, and a createIndex failure (an index of that name already
exists) is caught and ignored. -/
def restoreIndexes (c : DbColl) (idxs : List BackupIndex) : DbColl :=
  idxs.foldl
    (fun acc idx =>
      if idx.name == "_id_" then acc
      else if acc.indexes.any (fun e => e.name == idx.name) then acc
      else { acc with indexes := acc.indexes ++ [idx] })
    c

/-- One entry of the per-collection result list (part_005 lines 369-373). -/
structure RestoreResult where
  collection : String
  documentsRestored : Nat
  indexesRestored : Nat
deriving DecidableEq, Repr

/-- The response of POST /restore: on success the per-collection result
list; on a thrown error the catch block of lines 381-387 replies with the
bare error envelope, which carries no result list. -/
inductive RestoreResponse where
  | ok (results : List RestoreResult)
  | failure (msg : String)
deriving DecidableEq, Repr

/-- The per-collection result list a response carries, if any. -/
def RestoreResponse.resultsOf : RestoreResponse → Option (List RestoreResult)
  | .ok results => some results
  | .failure _ => none

/-- The restore loop of part_005 lines 342-374.  For each selected name
present in the backup: deleteMany, the tolerated index restore, then
insertMany when the backup holds documents.  The fail oracle says for which
collections insertMany throws (for example a duplicate-key violation); a
throw aborts the loop with the mutations so far kept. -/
def restoreLoop (fail : String → Bool) (backup : Backup) (targets : List String)
    (db : DbState) (results : List RestoreResult) :
    DbState × Except String (List RestoreResult) :=
  match targets with
  | [] => (db, .ok results)
  | t :: rest =>
    match backup.collections.find? (fun e => e.1 == t) with
    | none => restoreLoop fail backup rest db results
    | some e =>
      let cd := e.2
      let c1 : DbColl := { getColl db t with docs := [] }
      let c2 := restoreIndexes c1 cd.indexes
      let entry : RestoreResult :=
        { collection := t
          documentsRestored := cd.data.length
          indexesRestored := cd.indexes.length }
      if cd.data.length > 0 then
        if fail t then (setColl db t c2, .error "insert failed")
        else restoreLoop fail backup rest (setColl db t { c2 with docs := cd.data })
          (results ++ [entry])
      else restoreLoop fail backup rest (setColl db t c2) (results ++ [entry])

/-- POST /api/v1/database/restore (part_005 lines 328-388): target selection
of lines 336-338, the restore loop, then either the success envelope with
the result list or the catch block's bare error envelope. -/
def restoreRoute (fail : String → Bool) (db : DbState) (backup : Backup)
    (collections : List String) : DbState × RestoreResponse :=
  let targets :=
    if collections.length > 0 then collections
    else backup.collections.map (fun e => e.1)
  match restoreLoop fail backup targets db [] with
  | (db2, .ok results) => (db2, .ok results)
  | (db2, .error msg) => (db2, .failure msg)

/-! ## The combined system, for the cache-staleness invariant -/

/-- System state: the process-wide model cache plus the stored schema
definitions. -/
structure SysState where
  cache : ModelCache
  schemas : List SchemaDoc
deriving Repr

/-- The operations that touch the model cache or the schema registry. -/
inductive SysOp where
  | universalGetModel (collection : String)
  | collectionsGetModel (collection : String)
  | createSchema (b : CreateBody) (newId : Nat) (now : Nat)
  | updateSchema (id : Nat) (b : UpdateBody) (now : Nat)
  | softDeleteSchema (id : Nat) (now : Nat)

/-- One operation's effect on the system state.  The schema routes never
touch the model cache: schemas.js has no reference to the cache of
universal.js or part_004. -/
def sysStep (s : SysState) : SysOp → SysState
  | .universalGetModel c => { s with cache := (getDynamicModel s.cache c).2 }
  | .collectionsGetModel c => { s with cache := (getModelFromSchema s.schemas s.cache c).2 }
  | .createSchema b newId now =>
    match schemaCreate s.schemas b newId now with
    | .ok (db2, _) => { s with schemas := db2 }
    | .error _ => s
  | .updateSchema id b now =>
    match schemaUpdateRoute s.schemas id b now with
    | .ok (db2, _) => { s with schemas := db2 }
    | .error _ => s
  | .softDeleteSchema id now =>
    match schemaSoftDeleteRoute s.schemas id now with
    | .ok db2 => { s with schemas := db2 }
    | .error _ => s

/-- Running a sequence of operations. -/
def sysRun (s : SysState) (ops : List SysOp) : SysState :=
  ops.foldl sysStep s

/-! ## Concrete sample data for witnesses and counterexamples -/

/-- Whether an Except result is a success. -/
def exceptIsOk {ε α : Type} : Except ε α → Bool
  | .ok _ => true
  | .error _ => false

/-- An active schema definition for the users collection. -/
def usersSchema : SchemaDoc :=
  { id := 7
    collectionName := "users"
    displayName := "Users"
    fields := [{ name := "email", type := "String", required := true }] }

/-- A registry holding just the active users schema. -/
def usersDb : List SchemaDoc := [usersSchema]

/-- A soft-deleted schema definition for the orders collection. -/
def ordersInactive : SchemaDoc :=
  { id := 1
    collectionName := "orders"
    displayName := "Orders"
    fields := [{ name := "amount", type := "Number", required := true }]
    isActive := false }

/-- A well-formed create request for the orders collection. -/
def ordersCreateBody : CreateBody :=
  { collectionName := "orders"
    displayName := "Orders v2"
    fields := [{ name := "amount", type := "Number" }] }

/-- A concrete stored document with a well-formed Mongo id. -/
def sampleDoc : Doc :=
  { id := "507f1f77bcf86cd799439011", body := "sample" }

/-- Backup fixture: collection a with one document. -/
def backupCollA : BackupCollection :=
  { name := "a"
    documentCount := 1
    indexes := [{ name := "_id_", key := [("_id", 1)] }, { name := "x_1", key := [("x", 1)] }]
    data := [{ id := "a1", body := "da" }] }

/-- Backup fixture: collection b with one document whose insert will fail. -/
def backupCollB : BackupCollection :=
  { name := "b"
    documentCount := 1
    indexes := [{ name := "_id_", key := [("_id", 1)] }]
    data := [{ id := "b1", body := "db" }] }

/-- Backup fixture: collection c, untouched because the loop aborts first. -/
def backupCollC : BackupCollection :=
  { name := "c"
    documentCount := 1
    indexes := []
    data := [{ id := "c1", body := "dc" }] }

/-- A three-collection backup fixture. -/
def sampleBackup : Backup :=
  { database := "payment_api"
    timestamp := "t0"
    collections := [("a", backupCollA), ("b", backupCollB), ("c", backupCollC)] }

/-- The database state before the sample restore. -/
def sampleDbBefore : DbState :=
  [ ("a", { docs := [{ id := "olda", body := "" }] }),
    ("b", { docs := [{ id := "oldb", body := "" }] }),
    ("c", { docs := [{ id := "oldc", body := "" }] }) ]

/-- An insert-failure oracle: insertMany throws exactly on collection b. -/
def failOnB : String → Bool := fun c => c == "b"

/-- The backup entry for a collection name (part_005 line 343). -/
def backupEntry (backup : Backup) (c : String) : Option (String × BackupCollection) :=
  backup.collections.find? (fun e => e.1 == c)

/-- Whether the restore loop passes through collection c without throwing:
the name is absent from the backup, or its backup entry holds no documents,
or insertMany succeeds. -/
def collInsertOk (fail : String → Bool) (backup : Backup) (c : String) : Bool :=
  match backupEntry backup c with
  | none => true
  | some e => decide (e.2.data.length = 0) || !fail c

/-- The documents a selected collection holds right after its restore step:
cleared, then the backup documents inserted when there are any. -/
def restoredDocs (backup : Backup) (c : String) : List Doc :=
  match backupEntry backup c with
  | none => []
  | some e => e.2.data

/-- A system state whose cache already holds the schemaless users model. -/
def sysState0 : SysState :=
  { cache := [("users", CompiledModel.schemaless "users")], schemas := usersDb }

/-- A sequence of schema mutations and lookups touching the users name. -/
def sampleOps : List SysOp :=
  [ SysOp.createSchema ordersCreateBody 2 10,
    SysOp.updateSchema 7 { displayName := some "Users Schema" } 11,
    SysOp.softDeleteSchema 7 12,
    SysOp.collectionsGetModel "users",
    SysOp.universalGetModel "users" ]

end MongoConnector

namespace MongoConnector

/-! ## Helper lemmas -/

/-- A string starting with the two-character prefix greater-equal also starts
with the one-character prefix greater-than. -/
theorem startsWith_ge_imp (value : String) (h : jsStartsWith value ">=" = true) :
    jsStartsWith value ">" = true := by
  have e2 : (">=" : String).data = ['>', '='] := rfl
  have e1 : (">" : String).data = ['>'] := rfl
  unfold jsStartsWith at h ⊢
  rw [e2] at h
  rw [e1]
  cases hl : value.data with
  | nil => rw [hl] at h; simp [List.isPrefixOf] at h
  | cons c cs =>
    rw [hl] at h
    simp only [List.isPrefixOf, Bool.and_eq_true] at h
    simp only [List.isPrefixOf, Bool.and_eq_true]
    exact ⟨h.1, trivial⟩

/-- A string starting with the two-character prefix less-equal also starts
with the one-character prefix less-than. -/
theorem startsWith_le_imp (value : String) (h : jsStartsWith value "<=" = true) :
    jsStartsWith value "<" = true := by
  have e2 : ("<=" : String).data = ['<', '='] := rfl
  have e1 : ("<" : String).data = ['<'] := rfl
  unfold jsStartsWith at h ⊢
  rw [e2] at h
  rw [e1]
  cases hl : value.data with
  | nil => rw [hl] at h; simp [List.isPrefixOf] at h
  | cons c cs =>
    rw [hl] at h
    simp only [List.isPrefixOf, Bool.and_eq_true] at h
    simp only [List.isPrefixOf, Bool.and_eq_true]
    exact ⟨h.1, trivial⟩

/-! ## C1 -/

/-- C1 (code bug): the translator checks the one-character greater-than and
less-than prefixes first, so a raw value of shape greater-equal-v lands in
the greater-than branch with parseFloat applied to the equals-sign remainder
(NaN), a less-equal-v value lands in the less-than branch the same way, and
no input whatsoever can produce a greater-or-equal or less-or-equal
predicate: those two branches of the chain are unreachable. -/
theorem c1_gte_lte_branches_unreachable :
    parseFilterValue ">=100" = FilterPred.gt none ∧
    parseFilterValue "<=500" = FilterPred.lt none ∧
    ∀ value : String, (parseFilterValue value).isGteOrLte = false := by
  refine ⟨by decide, by decide, fun value => ?_⟩
  unfold parseFilterValue
  by_cases h1 : jsStartsWith value ">" = true
  · rw [if_pos h1]; rfl
  · rw [if_neg h1]
    by_cases h2 : jsStartsWith value "<" = true
    · rw [if_pos h2]; rfl
    · rw [if_neg h2]
      rw [if_neg (fun hc => h1 (startsWith_ge_imp value hc))]
      rw [if_neg (fun hc => h2 (startsWith_le_imp value hc))]
      by_cases h5 : jsStartsWith value "!=" = true
      · rw [if_pos h5]; rfl
      · rw [if_neg h5]
        by_cases h6 : jsStartsWith value "~" = true
        · rw [if_pos h6]; rfl
        · rw [if_neg h6]
          by_cases h7 : jsIncludesChar value ',' = true
          · rw [if_pos h7]; rfl
          · rw [if_neg h7]
            by_cases h8 : value = "true"
            · rw [if_pos h8]; rfl
            · rw [if_neg h8]
              by_cases h9 : value = "false"
              · rw [if_pos h9]; rfl
              · rw [if_neg h9]
                cases jsNumberWhole value <;> cases jsParseFloat value <;> rfl

/-! ## C2 -/

/-- C2 counterexample: with the users schema registered and active and the
cache empty, the universal router's model obtainment still produces the
permissive schemaless model — getDynamicModel performs no schema lookup at
all, so the claimed active-schema lookup does not happen for the universal
document operations. -/
theorem c2_universal_router_ignores_schema :
    getByCollectionName usersDb "users" = some usersSchema ∧
    cacheGet [] "users" = none ∧
    (getDynamicModel [] "users").1 = CompiledModel.schemaless "users" ∧
    CompiledModel.isSchemaConstrained (getDynamicModel [] "users").1 = false := by
  refine ⟨rfl, rfl, rfl, rfl⟩

/-- C2 amended: the claimed behavior holds for the collections router's
getModelFromSchema — on a cache miss it consults the active schema, uses a
schema-constrained compiled model exactly when one exists, caches the result,
and returns a cached model as-is — while the universal router's
getDynamicModel always produces the permissive schemaless model on a miss,
never consulting the registry. -/
theorem c2_model_obtainment_per_router (db : List SchemaDoc) (cache : ModelCache)
    (name : String) :
    (∀ m, cacheGet cache name = some m →
      getModelFromSchema db cache name = (m, cache) ∧
      getDynamicModel cache name = (m, cache)) ∧
    (cacheGet cache name = none →
      (getModelFromSchema db cache name).1.isSchemaConstrained =
        (getByCollectionName db name).isSome ∧
      (∀ sd, getByCollectionName db name = some sd →
        (getModelFromSchema db cache name).1 =
          CompiledModel.fromSchema name (generateMongooseSchema sd)) ∧
      cacheGet (getModelFromSchema db cache name).2 name =
        some (getModelFromSchema db cache name).1 ∧
      (getDynamicModel cache name).1 = CompiledModel.schemaless name) := by
  constructor
  · intro m hm
    constructor
    · unfold getModelFromSchema
      rw [hm]
    · unfold getDynamicModel
      rw [hm]
  · intro hn
    unfold getModelFromSchema getDynamicModel
    rw [hn]
    cases hs : getByCollectionName db name with
    | some sd =>
      refine ⟨rfl, fun sd2 hsd2 => ?_, ?_, rfl⟩
      · cases hsd2
        rfl
      · unfold cacheGet cacheSet
        simp [List.find?]
    | none =>
      refine ⟨rfl, fun sd2 hsd2 => ?_, ?_, rfl⟩
      · cases hsd2
      · unfold cacheGet cacheSet
        simp [List.find?]

/-- C2 witness: the amended theorem applied to the users registry with an
empty cache. -/
theorem c2_model_obtainment_per_router_witness :
    (getModelFromSchema usersDb [] "users").1 =
      CompiledModel.fromSchema "users" (generateMongooseSchema usersSchema) ∧
    (getDynamicModel ([] : ModelCache) "users").1 = CompiledModel.schemaless "users" :=
  ⟨(((c2_model_obtainment_per_router usersDb [] "users").2 rfl).2.1 usersSchema rfl),
   (((c2_model_obtainment_per_router usersDb [] "users").2 rfl).2.2.2)⟩

/-! ## C3 -/

/-- C3 counterexample: the only definition for the orders collection is
soft-deleted, so no active definition exists, yet create still answers 409
conflict — the duplicate check does not filter on isActive. -/
theorem c3_softdeleted_name_still_conflicts :
    getByCollectionName [ordersInactive] "orders" = none ∧
    schemaCreate [ordersInactive] ordersCreateBody 2 10 = Except.error ApiError.conflict := by
  constructor
  · rfl
  · rfl

/-- C3 amended: create fails with ConflictError exactly when any definition
at all — active or soft-deleted — exists for the case-normalized collection
name; a create for a name whose only definition is soft-deleted is therefore
also rejected. -/
theorem c3_conflict_iff_any_existing_name (db : List SchemaDoc) (b : CreateBody)
    (newId now : Nat) (hb : validateCreateBody b = true) :
    schemaCreate db b newId now = Except.error ApiError.conflict ↔
      ∃ s ∈ db, s.collectionName = jsToLower b.collectionName := by
  unfold schemaCreate
  rw [if_neg (by simp [hb])]
  cases hf : db.find? (fun s => s.collectionName == jsToLower b.collectionName) with
  | some s =>
    simp only [iff_true_intro rfl, true_iff]
    refine ⟨s, List.mem_of_find?_eq_some hf, ?_⟩
    have := List.find?_some hf
    simpa using this
  | none =>
    constructor
    · intro h
      cases h
    · rintro ⟨s, hs, he⟩
      have := List.find?_eq_none.mp hf s hs
      simp [he] at this

/-- C3 witness: the amended equivalence applied to the soft-deleted orders
registry, confirming the conflict on a valid body. -/
theorem c3_conflict_iff_any_existing_name_witness :
    validateCreateBody ordersCreateBody = true ∧
    (schemaCreate [ordersInactive] ordersCreateBody 2 10 = Except.error ApiError.conflict ↔
      ∃ s ∈ [ordersInactive], s.collectionName = jsToLower ordersCreateBody.collectionName) :=
  ⟨by decide,
   c3_conflict_iff_any_existing_name [ordersInactive] ordersCreateBody 2 10 (by decide)⟩

/-! ## C9 -/

/-- C9: the delete route reports success exactly when a document with the
given identifier was removed, and after a successful delete every repeated
call for the same identifier reports not-found. -/
theorem c9_delete_success_iff_removed (docs : List Doc) (id : String)
    (hid : isMongoId id = true) :
    (exceptIsOk (deleteDocRoute docs id) = true ↔ ∃ d ∈ docs, d.id = id) ∧
    (∀ docs1, deleteDocRoute docs id = Except.ok docs1 →
      deleteDocRoute docs1 id = Except.error ApiError.notFound) := by
  unfold deleteDocRoute findByIdAndDelete
  rw [if_neg (by simp [hid])]
  cases hf : docs.find? (fun d => d.id == id) with
  | none =>
    constructor
    · constructor
      · intro h
        cases h
      · rintro ⟨d, hd, he⟩
        have := List.find?_eq_none.mp hf d hd
        simp [he] at this
    · intro docs1 h
      cases h
  | some d =>
    constructor
    · refine ⟨fun _ => ⟨d, List.mem_of_find?_eq_some hf, ?_⟩, fun _ => rfl⟩
      have := List.find?_some hf
      simpa using this
    · intro docs1 h
      cases h
      rw [if_neg (by simp [hid])]
      have hnone : (docs.filter (fun x => !(x.id == id))).find? (fun d => d.id == id) = none := by
        rw [List.find?_eq_none]
        intro x hx
        have := List.of_mem_filter hx
        simp at this
        simp [this]
      rw [hnone]

/-- C9 witness: deleting the sample document succeeds, and deleting it again
reports not-found. -/
theorem c9_delete_success_iff_removed_witness :
    isMongoId "507f1f77bcf86cd799439011" = true ∧
    ((exceptIsOk (deleteDocRoute [sampleDoc] "507f1f77bcf86cd799439011") = true ↔
        ∃ d ∈ [sampleDoc], d.id = "507f1f77bcf86cd799439011") ∧
      (∀ docs1, deleteDocRoute [sampleDoc] "507f1f77bcf86cd799439011" = Except.ok docs1 →
        deleteDocRoute docs1 "507f1f77bcf86cd799439011" = Except.error ApiError.notFound)) :=
  ⟨by decide, c9_delete_success_iff_removed [sampleDoc] "507f1f77bcf86cd799439011" (by decide)⟩

/-! ## C10 -/

/-- C10: every two-segment GET path ending in stats is dispatched to the
get-by-id route (registered earlier), whose id validation rejects the word
stats as a document identifier with a validation error, and no request path
at all is ever dispatched to the stats route. -/
theorem c10_stats_route_unreachable :
    (∀ c : String, firstMatchIdx universalGetRoutes [c, "stats"] = some getByIdRouteIdx) ∧
    getByIdValidation "stats" = some ApiError.validation ∧
    (∀ path : List String, reachesStatsRoute path = false) := by
  refine ⟨fun c => rfl, rfl, fun path => ?_⟩
  match path with
  | [] => rfl
  | [a] =>
    cases h : ("collections" == a) with
    | true =>
      simp [reachesStatsRoute, firstMatchIdx, universalGetRoutes, routeMatches, segMatches, h,
        statsRouteIdx]
    | false =>
      simp [reachesStatsRoute, firstMatchIdx, universalGetRoutes, routeMatches, segMatches, h,
        statsRouteIdx]
  | [a, b] => rfl
  | a :: b :: c :: rest => rfl

/-! ## C5 -/

/-- Inserting a model for an uncached name preserves every existing cache
binding. -/
theorem cacheGet_set_preserve (cache : ModelCache) (k name : String)
    (m0 m : CompiledModel) (hk : cacheGet cache k = none)
    (h : cacheGet cache name = some m) :
    cacheGet (cacheSet cache k m0) name = some m := by
  have hne : (k == name) = false := by
    cases e : (k == name) with
    | true =>
      exfalso
      have hkn : k = name := by simpa using e
      rw [hkn, h] at hk
      cases hk
    | false => rfl
  unfold cacheGet at h
  unfold cacheGet cacheSet
  rw [List.find?_cons_of_neg]
  · exact h
  · simp [hne]

/-- No system operation removes or replaces an existing cache binding: the
model lookups insert only uncached names and the schema routes never touch
the cache. -/
theorem sysStep_preserves_cache (s : SysState) (op : SysOp) (name : String)
    (m : CompiledModel) (h : cacheGet s.cache name = some m) :
    cacheGet (sysStep s op).cache name = some m := by
  cases op with
  | universalGetModel c =>
    simp only [sysStep]
    unfold getDynamicModel
    cases hc : cacheGet s.cache c with
    | some m2 => exact h
    | none => exact cacheGet_set_preserve s.cache c name _ m hc h
  | collectionsGetModel c =>
    simp only [sysStep]
    unfold getModelFromSchema
    cases hc : cacheGet s.cache c with
    | some m2 => exact h
    | none =>
      cases getByCollectionName s.schemas c with
      | some sd => exact cacheGet_set_preserve s.cache c name _ m hc h
      | none => exact cacheGet_set_preserve s.cache c name _ m hc h
  | createSchema b newId now =>
    simp only [sysStep]
    cases schemaCreate s.schemas b newId now with
    | ok p =>
      cases p with
      | mk db2 doc => exact h
    | error e => exact h
  | updateSchema id b now =>
    simp only [sysStep]
    cases schemaUpdateRoute s.schemas id b now with
    | ok p =>
      cases p with
      | mk db2 doc => exact h
    | error e => exact h
  | softDeleteSchema id now =>
    simp only [sysStep]
    cases schemaSoftDeleteRoute s.schemas id now with
    | ok db2 => exact h
    | error e => exact h

/-- C5: once a model is cached for a name, any sequence of further
operations — schema creates, updates, soft deletes, model lookups — leaves
that binding in place, and both routers keep returning the very same model,
so later schema mutations never change the validation applied to that
collection. -/
theorem c5_cached_model_never_replaced (s : SysState) (name : String)
    (m : CompiledModel) (h : cacheGet s.cache name = some m) (ops : List SysOp) :
    cacheGet (sysRun s ops).cache name = some m ∧
    (getDynamicModel (sysRun s ops).cache name).1 = m ∧
    (getModelFromSchema (sysRun s ops).schemas (sysRun s ops).cache name).1 = m := by
  have main : ∀ ops2 : List SysOp, ∀ s2 : SysState, cacheGet s2.cache name = some m →
      cacheGet (sysRun s2 ops2).cache name = some m := by
    intro ops2
    induction ops2 with
    | nil => intro s2 h2; exact h2
    | cons op rest ih =>
      intro s2 h2
      have e : sysRun s2 (op :: rest) = sysRun (sysStep s2 op) rest := rfl
      rw [e]
      exact ih _ (sysStep_preserves_cache s2 op name m h2)
  have hc := main ops s h
  refine ⟨hc, ?_, ?_⟩
  · unfold getDynamicModel
    rw [hc]
  · unfold getModelFromSchema
    rw [hc]

/-- C5 witness: after a create, an update, a soft delete and fresh lookups,
the users binding still holds the schemaless model cached beforehand. -/
theorem c5_cached_model_never_replaced_witness :
    cacheGet (sysRun sysState0 sampleOps).cache "users" =
      some (CompiledModel.schemaless "users") ∧
    (getDynamicModel (sysRun sysState0 sampleOps).cache "users").1 =
      CompiledModel.schemaless "users" ∧
    (getModelFromSchema (sysRun sysState0 sampleOps).schemas
        (sysRun sysState0 sampleOps).cache "users").1 =
      CompiledModel.schemaless "users" :=
  c5_cached_model_never_replaced sysState0 "users" (CompiledModel.schemaless "users") rfl
    sampleOps

/-! ## C6 -/

/-- C6: the schema update overwrites exactly the keys present in the partial
body and leaves every unmentioned field at its previous value; the route
result is identical whether or not the body supplies a collectionName (the
attempt is silently ignored, never an error); and updatedAt is always set to
the time of the update. -/
theorem c6_update_overwrites_only_present_keys :
    (∀ db id b now, schemaUpdateRoute db id b now =
      schemaUpdateRoute db id { b with collectionName := none } now) ∧
    ∀ s b now,
      (applySchemaUpdate s b now).id = s.id ∧
      (applySchemaUpdate s b now).collectionName = s.collectionName ∧
      (applySchemaUpdate s b now).updatedAt = now ∧
      (applySchemaUpdate s b now).displayName = b.displayName.getD s.displayName ∧
      (applySchemaUpdate s b now).description =
        (match b.description with | some v => some v | none => s.description) ∧
      (applySchemaUpdate s b now).fields = b.fields.getD s.fields ∧
      (applySchemaUpdate s b now).indexes = b.indexes.getD s.indexes ∧
      (applySchemaUpdate s b now).validationRules =
        (match b.validationRules with | some v => some v | none => s.validationRules) ∧
      (applySchemaUpdate s b now).isActive = b.isActive.getD s.isActive ∧
      (applySchemaUpdate s b now).createdAt = b.createdAt.getD s.createdAt := by
  constructor
  · intro db id b now
    rcases b with ⟨cn, dn, ds, fs, ix, vr, ia, ca⟩
    rfl
  · intro s b now
    rcases b with ⟨cn, dn, ds, fs, ix, vr, ia, ca⟩
    cases dn <;> cases ds <;> cases fs <;> cases ix <;> cases vr <;> cases ia <;> cases ca <;>
      exact ⟨rfl, rfl, rfl, rfl, rfl, rfl, rfl, rfl, rfl, rfl⟩

/-! ## C7 -/

/-- Saving a replacement document whose id matches the searched id commutes
with findById: the found document is the replaced one. -/
theorem findSchemaById_map_replace (db : List SchemaDoc) (id : Nat) (r : SchemaDoc)
    (hr : (r.id == id) = true) :
    findSchemaById (db.map (fun x => if x.id == id then r else x)) id =
      (findSchemaById db id).map (fun x => if x.id == id then r else x) := by
  unfold findSchemaById
  rw [List.find?_map]
  have hpred : ((fun s : SchemaDoc => s.id == id) ∘
      (fun x : SchemaDoc => if x.id == id then r else x)) =
      (fun s : SchemaDoc => s.id == id) := by
    funext x
    by_cases hx : (x.id == id) = true
    · simp [Function.comp, hx, hr]
    · simp [Function.comp, hx]
  rw [hpred]

/-- C7: soft delete is idempotent — on any registry holding the id, the
first call succeeds, the second call also succeeds (it does not report
not-found), and the definition ends with isActive false. -/
theorem c7_softdelete_idempotent (db : List SchemaDoc) (id : Nat) (now1 now2 : Nat)
    (s : SchemaDoc) (h : findSchemaById db id = some s) :
    ∃ db1 db2,
      schemaSoftDeleteRoute db id now1 = Except.ok db1 ∧
      schemaSoftDeleteRoute db1 id now2 = Except.ok db2 ∧
      ∃ s2, findSchemaById db2 id = some s2 ∧ s2.isActive = false := by
  have h' : List.find? (fun x : SchemaDoc => x.id == id) db = some s := h
  have hs0 := List.find?_some h'
  have hs : (s.id == id) = true := hs0
  have hra : (({ s with isActive := false, updatedAt := now1 } : SchemaDoc).id == id) = true := hs
  have hrb : (({ s with isActive := false, updatedAt := now2 } : SchemaDoc).id == id) = true := hs
  have e1 : schemaSoftDeleteRoute db id now1 =
      Except.ok (db.map (fun x => if x.id == id then
        { s with isActive := false, updatedAt := now1 } else x)) := by
    unfold schemaSoftDeleteRoute
    rw [h]
  have hf1 : findSchemaById (db.map (fun x => if x.id == id then
      { s with isActive := false, updatedAt := now1 } else x)) id =
      some { s with isActive := false, updatedAt := now1 } := by
    rw [findSchemaById_map_replace db id _ hra, h]
    simp only [Option.map]
    rw [if_pos hs]
  have e2 : schemaSoftDeleteRoute (db.map (fun x => if x.id == id then
      { s with isActive := false, updatedAt := now1 } else x)) id now2 =
      Except.ok ((db.map (fun x => if x.id == id then
        { s with isActive := false, updatedAt := now1 } else x)).map
        (fun x => if x.id == id then
          { s with isActive := false, updatedAt := now2 } else x)) := by
    unfold schemaSoftDeleteRoute
    rw [hf1]
  have hf2 : findSchemaById ((db.map (fun x => if x.id == id then
      { s with isActive := false, updatedAt := now1 } else x)).map
      (fun x => if x.id == id then
        { s with isActive := false, updatedAt := now2 } else x)) id =
      some { s with isActive := false, updatedAt := now2 } := by
    rw [findSchemaById_map_replace _ id _ hrb, hf1]
    simp only [Option.map]
    rw [if_pos hra]
  exact ⟨_, _, e1, e2, ⟨_, hf2, rfl⟩⟩

/-- C7 witness: soft deleting the users schema twice succeeds both times and
ends inactive. -/
theorem c7_softdelete_idempotent_witness :
    ∃ db1 db2,
      schemaSoftDeleteRoute usersDb 7 20 = Except.ok db1 ∧
      schemaSoftDeleteRoute db1 7 21 = Except.ok db2 ∧
      ∃ s2, findSchemaById db2 7 = some s2 ∧ s2.isActive = false :=
  c7_softdelete_idempotent usersDb 7 20 21 usersSchema rfl

/-! ## C8 -/

/-- C8: a malformed page or limit fails with the validation error produced
ahead of the handler body (hence before any database call); absent
parameters default to page 1 and limit 10; the skip of every successful
window is page minus one times limit; a supplied page validates exactly when
it is an integer at least 1 and a supplied limit exactly when it is an
integer in 1..1000; and the reported page count formula equals the
mathematical ceiling of total over limit for every positive limit. -/
theorem c8_pagination_window :
    (∀ pageS limitS, (pageParamOk pageS = false ∨ limitParamOk limitS = false) →
      listPagination pageS limitS = Except.error ApiError.validation) ∧
    listPagination none none = Except.ok { page := 1, limit := 10, skip := 0 } ∧
    (∀ pageS limitS w, listPagination pageS limitS = Except.ok w →
      w.skip = (w.page - 1) * w.limit) ∧
    (∀ s, pageParamOk (some s) = true ↔ ∃ n, strictIntOfString s = some n ∧ 1 ≤ n) ∧
    (∀ s, limitParamOk (some s) = true ↔
      ∃ n, strictIntOfString s = some n ∧ 1 ≤ n ∧ n ≤ 1000) ∧
    (∀ total limit, 1 ≤ limit →
      pagesOf total limit = Nat.ceil ((total : ℚ) / (limit : ℚ))) := by
  refine ⟨?_, ?_, ?_, ?_, ?_, ?_⟩
  · intro pageS limitS hbad
    unfold listPagination
    rw [if_pos hbad]
  · rfl
  · intro pageS limitS w hw
    unfold listPagination at hw
    by_cases hbad : pageParamOk pageS = false ∨ limitParamOk limitS = false
    · rw [if_pos hbad] at hw
      cases hw
    · rw [if_neg hbad] at hw
      cases hw
      rfl
  · intro s
    simp only [pageParamOk]
    cases hn : strictIntOfString s with
    | none => simp
    | some n =>
      simp only [decide_eq_true_eq]
      constructor
      · intro h1
        exact ⟨n, rfl, h1⟩
      · rintro ⟨n2, hn2, h1⟩
        cases hn2
        exact h1
  · intro s
    simp only [limitParamOk]
    cases hn : strictIntOfString s with
    | none => simp
    | some n =>
      simp only [Bool.and_eq_true, decide_eq_true_eq]
      constructor
      · intro h1
        exact ⟨n, rfl, h1⟩
      · rintro ⟨n2, hn2, h1⟩
        cases hn2
        exact h1
  · intro total limit hl
    have hl0 : 0 < limit := hl
    rcases Nat.eq_zero_or_pos total with h0 | hpos
    · subst h0
      unfold pagesOf
      have hz : (0 + limit - 1) / limit = 0 := Nat.div_eq_of_lt (by omega)
      rw [hz]
      symm
      rw [Nat.ceil_eq_zero]
      simp
    · unfold pagesOf
      have hmod := Nat.div_add_mod (total + limit - 1) limit
      have hrlt : (total + limit - 1) % limit < limit := Nat.mod_lt _ hl0
      obtain ⟨m, hm⟩ : ∃ m, limit * ((total + limit - 1) / limit) = m := ⟨_, rfl⟩
      rw [hm] at hmod
      have hub : total ≤ ((total + limit - 1) / limit) * limit := by
        rw [Nat.mul_comm, hm]
        omega
      have hlb : (((total + limit - 1) / limit) - 1) * limit < total := by
        have hsub : (((total + limit - 1) / limit) - 1) * limit =
            ((total + limit - 1) / limit) * limit - limit := by
          rw [Nat.sub_mul, Nat.one_mul]
        rw [hsub, Nat.mul_comm, hm]
        omega
      have hq1 : (total + limit - 1) / limit ≠ 0 := by
        intro hq0
        rw [hq0, Nat.zero_mul] at hub
        omega
      symm
      rw [Nat.ceil_eq_iff hq1]
      have hlQ : (0 : ℚ) < (limit : ℚ) := by exact_mod_cast hl0
      constructor
      · rw [lt_div_iff₀ hlQ]
        exact_mod_cast hlb
      · rw [div_le_iff₀ hlQ]
        exact_mod_cast hub

/-- C8 witness: a non-numeric page is rejected, a concrete valid window gets
skip forty, the page validator accepts the string three, and twelve
documents at limit five make three pages. -/
theorem c8_pagination_window_witness :
    listPagination (some "abc") none = Except.error ApiError.validation ∧
    ((⟨3, 20, 40⟩ : PageWindow).skip = ((⟨3, 20, 40⟩ : PageWindow).page - 1) *
      (⟨3, 20, 40⟩ : PageWindow).limit) ∧
    (pageParamOk (some "3") = true ↔ ∃ n, strictIntOfString "3" = some n ∧ 1 ≤ n) ∧
    pagesOf 12 5 = Nat.ceil ((12 : ℚ) / (5 : ℚ)) :=
  ⟨c8_pagination_window.1 (some "abc") none (Or.inl (by decide)),
   c8_pagination_window.2.2.1 (some "3") (some "20") ⟨3, 20, 40⟩ rfl,
   c8_pagination_window.2.2.2.1 "3",
   c8_pagination_window.2.2.2.2.2 12 5 (by decide)⟩

/-! ## C4 -/

/-- Writing a collection and reading it back gives the written state. -/
theorem getColl_set_self (db : DbState) (n : String) (x : DbColl) :
    getColl (setColl db n x) n = x := by
  unfold getColl setColl
  simp [List.find?]

/-- Writing one collection leaves every other collection unchanged. -/
theorem getColl_set_ne (db : DbState) (n c : String) (x : DbColl) (h : ¬n = c) :
    getColl (setColl db n x) c = getColl db c := by
  unfold getColl setColl
  rw [List.find?_cons_of_neg]
  simp [h]

/-- The tolerated index restore never touches the documents. -/
theorem restoreIndexes_docs (idxs : List BackupIndex) :
    ∀ c : DbColl, (restoreIndexes c idxs).docs = c.docs := by
  unfold restoreIndexes
  induction idxs with
  | nil => intro c; rfl
  | cons i is ih =>
    intro c
    simp only [List.foldl_cons]
    by_cases h1 : (i.name == "_id_") = true
    · rw [if_pos h1]
      exact ih c
    · rw [if_neg h1]
      by_cases h2 : (c.indexes.any (fun e => e.name == i.name)) = true
      · rw [if_pos h2]
        exact ih c
      · rw [if_neg h2]
        exact ih { c with indexes := c.indexes ++ [i] }

/-- The restored-documents description at a name present in the backup. -/
theorem restoredDocs_eq (backup : Backup) (c : String) (e : String × BackupCollection)
    (h : backupEntry backup c = some e) : restoredDocs backup c = e.2.data := by
  unfold restoredDocs
  rw [h]

/-- Core induction for the amended C4: with every collection before t
processed cleanly and t's insert throwing, the restore loop aborts with the
insert error, leaves every collection outside the processed prefix exactly
as it was, and leaves every collection of the prefix restored from the
backup. -/
theorem restoreLoop_abort (fail : String → Bool) (backup : Backup) (t : String)
    (rest : List String) (ht : collInsertOk fail backup t = false) :
    ∀ done : List String, ∀ db : DbState, ∀ acc : List RestoreResult,
    (∀ c ∈ done, (backupEntry backup c).isSome = true ∧
      collInsertOk fail backup c = true) →
    (restoreLoop fail backup (done ++ t :: rest) db acc).2 =
      Except.error "insert failed" ∧
    (∀ c, c ∉ done → c ≠ t →
      getColl (restoreLoop fail backup (done ++ t :: rest) db acc).1 c =
        getColl db c) ∧
    (∀ c ∈ done, c ≠ t →
      (getColl (restoreLoop fail backup (done ++ t :: rest) db acc).1 c).docs =
        restoredDocs backup c) := by
  obtain ⟨et, het, htlen, htfail⟩ :
      ∃ e, backupEntry backup t = some e ∧ e.2.data.length > 0 ∧ fail t = true := by
    unfold collInsertOk at ht
    cases hbe : backupEntry backup t with
    | none =>
      rw [hbe] at ht
      cases ht
    | some e =>
      rw [hbe] at ht
      simp only [Bool.or_eq_false_iff, decide_eq_false_iff_not, Bool.not_eq_false'] at ht
      exact ⟨e, rfl, by omega, ht.2⟩
  have het' : List.find? (fun e => e.1 == t) backup.collections = some et := het
  intro done
  induction done with
  | nil =>
    intro db acc _
    simp only [List.nil_append, restoreLoop]
    cases hbe : backup.collections.find? (fun e => e.1 == t) with
    | none =>
      rw [het'] at hbe
      cases hbe
    | some e =>
      rw [het'] at hbe
      injection hbe with hbe'
      subst hbe'
      simp only []
      rw [if_pos htlen, if_pos htfail]
      refine ⟨rfl, ?_, ?_⟩
      · intro c _ hct
        exact getColl_set_ne db t c _ (fun hx => hct hx.symm)
      · intro c hc
        exact absurd hc (List.not_mem_nil c)
  | cons d done' ih =>
    intro db acc hdone
    obtain ⟨hsome, hok⟩ := hdone d (List.mem_cons_self d done')
    obtain ⟨e, he0⟩ := Option.isSome_iff_exists.mp hsome
    have he : List.find? (fun x => x.1 == d) backup.collections = some e := he0
    have hdone' : ∀ c ∈ done', (backupEntry backup c).isSome = true ∧
        collInsertOk fail backup c = true :=
      fun c hc => hdone c (List.mem_cons_of_mem d hc)
    have hok2 : (decide (e.2.data.length = 0) || !fail d) = true := by
      unfold collInsertOk at hok
      rw [he0] at hok
      exact hok
    simp only [List.cons_append, restoreLoop]
    cases hbe : backup.collections.find? (fun x => x.1 == d) with
    | none =>
      rw [he] at hbe
      cases hbe
    | some e2 =>
      rw [he] at hbe
      injection hbe with hbe'
      subst hbe'
      simp only []
      by_cases hdl : e.2.data.length > 0
      · have hdz : decide (e.2.data.length = 0) = false := by
          simp only [decide_eq_false_iff_not]
          omega
        have hfd : fail d = false := by
          rw [hdz, Bool.false_or, Bool.not_eq_true'] at hok2
          exact hok2
        rw [if_pos hdl, if_neg (by simp [hfd])]
        have IH := ih (setColl db d
            { docs := e.2.data,
              indexes := (restoreIndexes
                { docs := [], indexes := (getColl db d).indexes } e.2.indexes).indexes })
          (acc ++ [⟨d, e.2.data.length, e.2.indexes.length⟩]) hdone'
        refine ⟨IH.1, ?_, ?_⟩
        · intro c hcnot hct
          have hcd : ¬c = d := fun hcd => hcnot (hcd ▸ List.mem_cons_self d done')
          have hcnot' : c ∉ done' := fun hc => hcnot (List.mem_cons_of_mem d hc)
          exact (IH.2.1 c hcnot' hct).trans
            (getColl_set_ne db d c _ (fun hdc => hcd hdc.symm))
        · intro c hc hct
          rcases List.mem_cons.mp hc with hcd | hc'
          · subst hcd
            by_cases hmem : c ∈ done'
            · exact IH.2.2 c hmem hct
            · exact (congrArg DbColl.docs
                ((IH.2.1 c hmem hct).trans (getColl_set_self db c _))).trans
                (restoredDocs_eq backup c e he0).symm
          · exact IH.2.2 c hc' hct
      · rw [if_neg hdl]
        have hdz : e.2.data = [] := by
          have hlz : e.2.data.length = 0 := by omega
          exact List.length_eq_zero.mp hlz
        have IH := ih (setColl db d
            (restoreIndexes { docs := [], indexes := (getColl db d).indexes } e.2.indexes))
          (acc ++ [⟨d, e.2.data.length, e.2.indexes.length⟩]) hdone'
        refine ⟨IH.1, ?_, ?_⟩
        · intro c hcnot hct
          have hcd : ¬c = d := fun hcd => hcnot (hcd ▸ List.mem_cons_self d done')
          have hcnot' : c ∉ done' := fun hc => hcnot (List.mem_cons_of_mem d hc)
          exact (IH.2.1 c hcnot' hct).trans
            (getColl_set_ne db d c _ (fun hdc => hcd hdc.symm))
        · intro c hc hct
          rcases List.mem_cons.mp hc with hcd | hc'
          · subst hcd
            by_cases hmem : c ∈ done'
            · exact IH.2.2 c hmem hct
            · have hx : (restoreIndexes
                  { docs := ([] : List Doc), indexes := (getColl db c).indexes }
                  e.2.indexes).docs = [] :=
                restoreIndexes_docs e.2.indexes _
              exact (congrArg DbColl.docs
                ((IH.2.1 c hmem hct).trans (getColl_set_self db c _))).trans
                (hx.trans ((restoredDocs_eq backup c e he0).trans hdz).symm)
          · exact IH.2.2 c hc' hct

/-- C4 counterexample: restoring the sample backup where collection b's bulk
insert throws leaves the earlier collection a fully restored and collection
c untouched, but the response is the bare error envelope with no
per-collection result list — so the caller does not receive the list of
collections restored up to the failure point. -/
theorem c4_failure_response_has_no_results :
    (restoreRoute failOnB sampleDbBefore sampleBackup []).2 =
      RestoreResponse.failure "insert failed" ∧
    ((restoreRoute failOnB sampleDbBefore sampleBackup []).2).resultsOf = none ∧
    (getColl (restoreRoute failOnB sampleDbBefore sampleBackup []).1 "a").docs =
      backupCollA.data ∧
    (getColl (restoreRoute failOnB sampleDbBefore sampleBackup []).1 "c").docs =
      (getColl sampleDbBefore "c").docs := by
  refine ⟨by decide, by decide, by decide, by decide⟩

/-- C4 amended: when restore fails partway — every selected collection
before t restores cleanly and t's bulk insert throws — the collections
processed before the failure do remain restored in the database, but the
caller does not receive the per-collection result list: the failure response
carries none; the list is only ever carried by the success envelope. -/
theorem c4_restore_failure_prefix_kept_results_dropped
    (fail : String → Bool) (db : DbState) (backup : Backup)
    (done rest : List String) (t : String)
    (hdone : ∀ c ∈ done, (backupEntry backup c).isSome = true ∧
      collInsertOk fail backup c = true)
    (ht : collInsertOk fail backup t = false) :
    (restoreRoute fail db backup (done ++ t :: rest)).2.resultsOf = none ∧
    ∀ c ∈ done, c ≠ t →
      (getColl (restoreRoute fail db backup (done ++ t :: rest)).1 c).docs =
        restoredDocs backup c := by
  have hmain := restoreLoop_abort fail backup t rest ht done db [] hdone
  have hlen : (done ++ t :: rest).length > 0 := by simp
  unfold restoreRoute
  rw [if_pos hlen]
  have hL : restoreLoop fail backup (done ++ t :: rest) db [] =
      ((restoreLoop fail backup (done ++ t :: rest) db []).1,
        Except.error "insert failed") :=
    Prod.ext rfl hmain.1
  simp only []
  rw [hL]
  refine ⟨rfl, ?_⟩
  intro c hc hct
  exact hmain.2.2 c hc hct

/-- C4 witness: the amended theorem at the sample backup, with collection a
processed before the failing collection b and collection c after it. -/
theorem c4_restore_failure_prefix_kept_results_dropped_witness :
    (restoreRoute failOnB sampleDbBefore sampleBackup
      (["a"] ++ "b" :: ["c"])).2.resultsOf = none ∧
    ∀ c ∈ ["a"], c ≠ "b" →
      (getColl (restoreRoute failOnB sampleDbBefore sampleBackup
        (["a"] ++ "b" :: ["c"])).1 c).docs = restoredDocs sampleBackup c :=
  c4_restore_failure_prefix_kept_results_dropped failOnB sampleDbBefore sampleBackup
    ["a"] ["c"] "b" (by decide) (by decide)

end MongoConnector
